import Mathlib

/-!
# portfolio-api: the Dialogflow gateway of `main.go`

A shallow embedding of `extractDialogflowEntities`, `DialogflowProcessor.processNLP`
and `intentRequestHandler`, with the properties of the specification stated over it.

Conventions of the embedding

* A Go `string` is a Lean `String`; `fmt.Sprintf("%s%s", a, b)` is `a ++ b`.
* A Go `map[string]T` is the list of its entries in the order a `range` loop visits them.
  The keys of a well-formed map are pairwise distinct; Go leaves the visiting order open.
* A run-time panic is the `error` branch of `Except Panic`.
* `float64` and `float32` values are kept as their IEEE-754 bit patterns.
-/

namespace PortfolioApi

/-! ## Floating point values and `strconv.FormatFloat(x, 'f', 6, 64)` -/

/-- An IEEE-754 binary64 value, given by its bit pattern (`math.Float64bits`);
only the low 64 bits of `bits` are looked at. -/
structure Float64 where
  bits : Nat
  deriving DecidableEq, Repr

/-- An IEEE-754 binary32 value, given by its bit pattern; only the low 32 bits are looked at. -/
structure Float32 where
  bits : Nat
  deriving DecidableEq, Repr

namespace Float64

/-- Sign bit: `bits>>(expbits+mantbits) != 0`. -/
def neg (x : Float64) : Bool := x.bits % 2 ^ 64 / 2 ^ 63 != 0

/-- Biased exponent field: `int(bits>>mantbits) & (1<<expbits - 1)`. -/
def expField (x : Float64) : Nat := x.bits / 2 ^ 52 % 2 ^ 11

/-- Mantissa field: `bits & (1<<mantbits - 1)`. -/
def mantField (x : Float64) : Nat := x.bits % 2 ^ 52

/-- The value is neither an infinity nor a NaN. -/
def isFinite (x : Float64) : Bool := x.expField != 2047

/-- Mantissa after `genericFtoa` has added the implicit top bit of a normal number. -/
def mant (x : Float64) : Nat :=
  if x.expField = 0 then x.mantField else x.mantField + 2 ^ 52

/-- Binary exponent `e` after `genericFtoa`'s adjustments
(`exp++` for a denormal, `exp += bias`, and the `exp - mantbits` passed to `Shift`),
so that the magnitude of a finite value is `mant * 2 ^ e`. -/
def exp2 (x : Float64) : Int :=
  (if x.expField = 0 then 1 else (x.expField : Int)) - 1023 - 52

/-- Magnitude of a finite value as a rational number. -/
def magnitude (x : Float64) : ℚ := (x.mant : ℚ) * (2 : ℚ) ^ x.exp2

end Float64

/-- Rounding of `num / den` to the nearest natural number, ties to the even one:
what `decimal.Round` with `shouldRoundUp` computes on an exactly represented decimal. -/
def roundHalfEven (num den : Nat) : Nat :=
  let q := num / den
  let r := num % den
  if 2 * r < den then q
  else if den < 2 * r then q + 1
  else if q % 2 = 0 then q else q + 1

/-- The magnitude of a finite `x` in units of `10⁻⁶`, rounded half-to-even:
`d.Assign(mant); d.Shift(exp - mantbits); d.Round(d.dp + 6)` of `bigFtoa`.
(The 800-digit `decimal` holds every binary64 value exactly, so `trunc` stays false.) -/
def scaledMicro (x : Float64) : Nat :=
  match x.exp2 with
  | Int.ofNat e => x.mant * 2 ^ e * 10 ^ 6
  | Int.negSucc k => roundHalfEven (x.mant * 10 ^ 6) (2 ^ (k + 1))

/-- The six fraction digits `fmtF` emits for the value `n` of the fraction part. -/
def fracDigits (n : Nat) : List Char :=
  [Nat.digitChar (n / 100000 % 10), Nat.digitChar (n / 10000 % 10),
   Nat.digitChar (n / 1000 % 10), Nat.digitChar (n / 100 % 10),
   Nat.digitChar (n / 10 % 10), Nat.digitChar (n % 10)]

/-- Output of `fmtF` with `prec = 6`: sign, integer digits (at least `0`), `.`, six digits. -/
def fmtF (neg : Bool) (micro : Nat) : List Char :=
  (if neg then ['-'] else []) ++ Nat.toDigits 10 (micro / 10 ^ 6) ++ '.' :: fracDigits (micro % 10 ^ 6)

/-- Model of `strconv.FormatFloat(x, 'f', 6, 64)`, following `genericFtoa`:
the special values first, then `bigFtoa` and `fmtF`. -/
def FormatFloat (x : Float64) : String :=
  if x.expField = 2047 then
    if x.mantField ≠ 0 then "NaN"
    else if x.neg then "-Inf"
    else "+Inf"
  else String.mk (fmtF x.neg (scaledMicro x))

/-- Model of `strconv.FormatBool`. -/
def FormatBool (b : Bool) : String := if b then "true" else "false"

/-! ## `structpb.Value` -/

/-- The six wrapper types a oneof `Kind` can hold: `*Value_NullValue`, `*Value_NumberValue`,
`*Value_StringValue`, `*Value_BoolValue`, `*Value_StructValue`, `*Value_ListValue`. -/
inductive KindType where
  | null
  | number
  | string
  | bool
  | struct
  | list
  deriving DecidableEq, Repr

/-- A `*structpb.Value`. `nilValue` is the nil pointer, `unset` a value whose `Kind` is the nil
interface, and `typedNil k` a value whose `Kind` holds a nil pointer of the wrapper type `k`:
a type switch and a type assertion match it by its type, and reading the wrapper's field
dereferences nil. A nil `*Struct` or `*ListValue` inside a non-nil wrapper is read by the code
only through the nil-safe getters `GetFields` and `GetValues`, which give the empty map and the
empty slice; both are represented by the empty list. The fields of a struct are listed in
visiting order. -/
inductive Value where
  | nilValue
  | unset
  | typedNil (k : KindType)
  | NullValue
  | NumberValue (x : Float64)
  | StringValue (s : String)
  | BoolValue (b : Bool)
  | StructValue (fields : List (String × Value))
  | ListValue (values : List Value)

/-- A run-time panic of the Go program. -/
inductive Panic where
  | indexOutOfRange
  | nilDereference
  | nilMapAssign
  | jsonError (msg : String)
  deriving DecidableEq, Repr

deriving instance DecidableEq for Except

namespace Value

/-- Getter `GetNumberValue`: `if x, ok := x.GetKind().(*Value_NumberValue); ok { return
x.NumberValue }; return 0`. The assertion also succeeds on a nil wrapper of that type, whose
field cannot be read. -/
def GetNumberValue : Value → Except Panic Float64
  | NumberValue x => .ok x
  | typedNil .number => .error .nilDereference
  | _ => .ok ⟨0⟩

/-- Getter `GetStringValue`, of the same shape: the string of a string value, a nil
dereference on a nil string wrapper, `""` for everything else. -/
def GetStringValue : Value → Except Panic String
  | StringValue s => .ok s
  | typedNil .string => .error .nilDereference
  | _ => .ok ""

end Value

/-- One pass of the body of the `for key, value := range fields` loop (lines 113-121). -/
def structStep (extractedEntity : String) (kv : String × Value) : Except Panic String :=
  (if kv.1 = "amount" then
      kv.2.GetNumberValue.map (fun x => extractedEntity ++ FormatFloat x)
    else .ok extractedEntity).bind fun e1 =>
  (if kv.1 = "unit" then kv.2.GetStringValue.map (fun t => e1 ++ t) else .ok e1).bind fun e2 =>
  if kv.1 = "date_time" then kv.2.GetStringValue.map (fun t => e2 ++ t) else .ok e2

/-- The loop `for key, value := range fields` (lines 112-123) from the accumulated text
`extractedEntity`; a panic of a pass ends it. -/
def structLoop : List (String × Value) → String → Except Panic String
  | [], extractedEntity => .ok extractedEntity
  | kv :: rest, extractedEntity =>
    match structStep extractedEntity kv with
    | .error e => .error e
    | .ok extractedEntity' => structLoop rest extractedEntity'

/-- Function `extractDialogflowEntities` (lines 99-135). The type switch of line 101 goes by
the type of `Kind`, so a nil wrapper of a string, number, bool, struct or list enters that
case, where the getter (`GetStringValue`, `GetNumberValue`, `GetBoolValue`, `GetStructValue`,
`GetListValue`) dereferences it; a nil null wrapper, like every kind without a case, takes the
default branch. Indexing `list.GetValues()[0]` of an empty slice panics. -/
def extractDialogflowEntities : Value → Except Panic String
  | .StringValue s => .ok s
  | .typedNil .string => .error .nilDereference
  | .NumberValue x => .ok (FormatFloat x)
  | .typedNil .number => .error .nilDereference
  | .BoolValue b => .ok (FormatBool b)
  | .typedNil .bool => .error .nilDereference
  | .StructValue fields => structLoop fields ""
  | .typedNil .struct => .error .nilDereference
  | .ListValue [] => .error .indexOutOfRange
  | .ListValue (v :: _) => extractDialogflowEntities v
  | .typedNil .list => .error .nilDereference
  | .typedNil .null => .ok ""
  | .NullValue => .ok ""
  | .unset => .ok ""
  | .nilValue => .ok ""

/-- The chain of first elements from `v`, through list values only, ends in an empty list. -/
def reachesEmptyList : Value → Bool
  | .ListValue [] => true
  | .ListValue (v :: _) => reachesEmptyList v
  | _ => false

/-- The pass of the struct loop over this field reads a nil wrapper: the field is named
`amount` and holds a nil number wrapper, or is named `unit` or `date_time` and holds a nil
string wrapper. -/
def fieldReadsNilWrapper (kv : String × Value) : Bool :=
  (kv.1 = "amount" && kv.2 matches .typedNil .number) ||
    ((kv.1 = "unit" || kv.1 = "date_time") && kv.2 matches .typedNil .string)

/-- The chain of first elements from `v`, through list values only, ends in a value whose
`Kind` holds a nil string, number, bool, struct or list wrapper, or in a struct one of whose
recognised fields holds the nil wrapper its getter reads. -/
def reachesNilWrapper : Value → Bool
  | .typedNil .null => false
  | .typedNil _ => true
  | .StructValue fields => fields.any fieldReadsNilWrapper
  | .ListValue (v :: _) => reachesNilWrapper v
  | _ => false

/-! ## Reading decimal text back -/

/-- Value of a digit character. -/
def digitValue (c : Char) : Nat := c.toNat - '0'.toNat

/-- Number denoted by a list of decimal digits, most significant first. -/
def decimalValue (cs : List Char) : Nat := cs.foldl (fun a c => 10 * a + digitValue c) 0

/-- Text `s` is a fixed-point decimal numeral without exponent: an optional `-` (exactly when
`neg`), at least one integer digit, a decimal point and exactly six fraction digits, and the
number it denotes is within half a unit of the sixth decimal of `mag`. -/
def IsFixedPoint6 (s : String) (neg : Bool) (mag : ℚ) : Prop :=
  ∃ ip fp : List Char,
    s = String.mk ((if neg then ['-'] else []) ++ ip ++ '.' :: fp) ∧
    ip ≠ [] ∧ (∀ c ∈ ip, c.isDigit = true) ∧
    fp.length = 6 ∧ (∀ c ∈ fp, c.isDigit = true) ∧
    |((decimalValue ip : ℚ) + (decimalValue fp : ℚ) / 10 ^ 6) - mag| ≤ 1 / (2 * 10 ^ 6)

/-! ## Go maps -/

/-- Assignment `m[k] = v` on a map given by its entries: an existing key keeps its place. -/
def mapAssign {β : Type} : List (String × β) → String → β → List (String × β)
  | [], k, v => [(k, v)]
  | (k', v') :: rest, k, v =>
    if k' = k then (k', v) :: rest else (k', v') :: mapAssign rest k v

/-! ## The provider's messages -/

/-- A `dialogflowpb.Intent`; the code reads only `DisplayName`. -/
structure Intent where
  DisplayName : String
  deriving DecidableEq, Repr

/-- A `dialogflowpb.QueryResult`, restricted to what the code reads. `Msg` stands for
`dialogflowpb.Intent_Message`. `Intent = none` is the nil pointer, `FulfillmentMessages = none`
the nil slice. `Parameters` is `queryResult.Parameters.GetFields()` (nil-safe: a nil struct
gives no entries), in visiting order. -/
structure QueryResult (Msg : Type) where
  Intent : Option Intent
  IntentDetectionConfidence : Float32
  FulfillmentMessages : Option (List Msg)
  Parameters : List (String × Value)

/-- A `dialogflowpb.DetectIntentResponse`. `QueryResult = none` is what the nil-safe
`GetQueryResult()` returns for a nil response or an unset field. -/
structure DetectIntentResponse (Msg : Type) where
  QueryResult : Option (QueryResult Msg)

/-- The fields of the `dialogflowpb.DetectIntentRequest` built at lines 62-75. -/
structure DetectIntentRequest where
  Session : String
  Text : String
  LanguageCode : String
  TimeZone : String
  deriving DecidableEq, Repr

/-- The type `DialogflowProcessor` (lines 21-28). `sessionClient` is a constructed client:
`DetectIntent` answers a request with a response or with an error. -/
structure DialogflowProcessor (Msg : Type) where
  projectID : String
  authJSONFilePath : String
  lang : String
  timeZone : String
  sessionClient : DetectIntentRequest → Except String (DetectIntentResponse Msg)

/-- The type `NLPResponse` (lines 31-36). `Entities = none` is the nil map,
`FulfillmentMessages = none` the nil slice. -/
structure NLPResponse (Msg : Type) where
  Intent : String
  Confidence : Float32
  Entities : Option (List (String × String))
  FulfillmentMessages : Option (List Msg)
  deriving DecidableEq

/-- The zero value of `NLPResponse`: what the named result `r` holds before any assignment. -/
def NLPResponse.zero {Msg : Type} : NLPResponse Msg :=
  { Intent := "", Confidence := ⟨0⟩, Entities := none, FulfillmentMessages := none }

/-- The request of lines 62-75. -/
def detectIntentRequest {Msg : Type} (dp : DialogflowProcessor Msg) (rawMessage sessionID : String) :
    DetectIntentRequest :=
  { Session := "projects/" ++ dp.projectID ++ "/agent/sessions/" ++ sessionID
    Text := rawMessage
    LanguageCode := dp.lang
    TimeZone := dp.timeZone }

/-- The statement `r.Entities[paramName] = extractedValue`; writing to a nil map panics. -/
def assignEntity {Msg : Type} (r : NLPResponse Msg) (paramName extractedValue : String) :
    Except Panic (NLPResponse Msg) :=
  match r.Entities with
  | none => .error .nilMapAssign
  | some m =>
    .ok { Intent := r.Intent
          Confidence := r.Confidence
          Entities := some (mapAssign m paramName extractedValue)
          FulfillmentMessages := r.FulfillmentMessages }

/-- The loop `for paramName, p := range params` (lines 90-94). Of the diagnostic line 91 the
call `p.GetStringValue()` is kept, because it can panic; the text it prints is left out. -/
def paramLoop {Msg : Type} : List (String × Value) → NLPResponse Msg → Except Panic (NLPResponse Msg)
  | [], r => .ok r
  | (paramName, p) :: rest, r =>
    match p.GetStringValue with
    | .error e => .error e
    | .ok _ =>
      match extractDialogflowEntities p with
      | .error e => .error e
      | .ok extractedValue =>
        match assignEntity r paramName extractedValue with
        | .error e => .error e
        | .ok r' => paramLoop rest r'

/-- Method `DialogflowProcessor.processNLP` (lines 60-97). The diagnostic output of
`log.Printf` and `fmt.Printf` is left out. -/
def processNLP {Msg : Type} (dp : DialogflowProcessor Msg) (rawMessage username : String) :
    Except Panic (NLPResponse Msg) :=
  let sessionID := username
  let request := detectIntentRequest dp rawMessage sessionID
  match dp.sessionClient request with
  | .error _ => .ok NLPResponse.zero
  | .ok response =>
    match response.QueryResult with
    | none => .error .nilDereference
    | some queryResult =>
      let r : NLPResponse Msg := NLPResponse.zero
      let r : NLPResponse Msg :=
        match queryResult.Intent with
        | some intent =>
          { Intent := intent.DisplayName
            Confidence := queryResult.IntentDetectionConfidence
            Entities := r.Entities
            FulfillmentMessages := queryResult.FulfillmentMessages }
        | none => r
      let r : NLPResponse Msg :=
        { Intent := r.Intent
          Confidence := r.Confidence
          Entities := some []
          FulfillmentMessages := r.FulfillmentMessages }
      let params := queryResult.Parameters
      if params.length > 0 then paramLoop params r else .ok r

/-! ## The HTTP endpoint -/

namespace Float32

/-- The value is neither an infinity nor a NaN (exponent field not all ones). -/
def isFinite (x : Float32) : Bool := x.bits / 2 ^ 23 % 2 ^ 8 != 255

end Float32

/-- The record `userQuestion` declared inside the handler (lines 159-161). -/
structure userQuestion where
  Question : String
  deriving DecidableEq, Repr

/-- The two `encoding/json` services the handler relies on and that are fixed outside this
repository: decoding the request body into a `userQuestion` (`json.Unmarshal`), and the JSON
text of one fulfillment message, when the encoder accepts it. -/
structure JSONCodec (Msg : Type) where
  Unmarshal : String → Except String userQuestion
  MarshalMessage : Msg → Except String String

/-- A JSON value of the response document. `object` holds the entries of a string map,
`array` the texts of the encoded elements. -/
inductive JsonValue where
  | null
  | string (s : String)
  | number (x : Float32)
  | object (entries : List (String × String))
  | array (elems : List String)
  deriving DecidableEq

/-- What the handler hands to `w.Write`: plain text, or the text of a JSON object given by
its fields in order (followed by the newline `Encode` appends). -/
inductive Chunk where
  | text (s : String)
  | json (fields : List (String × JsonValue))
  deriving DecidableEq

/-- The `http.ResponseWriter`. `header` is the map `w.Header()`; `wroteHeader` holds the status
code and the headers sent by the first `WriteHeader`, `none` while nothing was sent;
`body` lists what was written. -/
structure ResponseWriter where
  header : List (String × String)
  wroteHeader : Option (Nat × List (String × String))
  body : List Chunk
  deriving DecidableEq

namespace ResponseWriter

/-- The writer a handler is called with: nothing set, nothing sent. -/
def fresh : ResponseWriter := { header := [], wroteHeader := none, body := [] }

/-- Call `w.Header().Set(key, value)`. -/
def headerSet (w : ResponseWriter) (key value : String) : ResponseWriter :=
  { header := mapAssign w.header key value, wroteHeader := w.wroteHeader, body := w.body }

/-- Call `w.WriteHeader(code)`: only the first call sends the status line and the headers. -/
def WriteHeader (w : ResponseWriter) (code : Nat) : ResponseWriter :=
  match w.wroteHeader with
  | some _ => w
  | none => { header := w.header, wroteHeader := some (code, w.header), body := w.body }

/-- Call `w.Write(chunk)`: sends status 200 first when no header was written yet. -/
def Write (w : ResponseWriter) (chunk : Chunk) : ResponseWriter :=
  let w := w.WriteHeader 200
  { header := w.header, wroteHeader := w.wroteHeader, body := w.body ++ [chunk] }

end ResponseWriter

/-- Model of `http.Error(w, error, code)`: plain-text content type, `nosniff`, the status
code, and the message followed by a newline. -/
def httpError (w : ResponseWriter) (error : String) (code : Nat) : ResponseWriter :=
  let w := w.headerSet "Content-Type" "text/plain; charset=utf-8"
  let w := w.headerSet "X-Content-Type-Options" "nosniff"
  let w := w.WriteHeader code
  w.Write (.text (error ++ "\n"))

/-- The `*http.Request` as the handler reads it. `Body` and `BodyErr` are the two results of
`ioutil.ReadAll(r.Body)`. -/
structure Request where
  Method : String
  Host : String
  RemoteAddr : String
  Body : String
  BodyErr : Option String

/-- The steps of the handler that reach outside it. -/
inductive Event where
  | readBody
  | processNLP (rawMessage username : String)
  deriving DecidableEq, Repr

/-- What a run of the handler leaves behind: the writer, the outside steps taken in order,
and the panic that ended the run, if any. -/
structure Outcome where
  w : ResponseWriter
  trace : List Event
  panicked : Option Panic
  deriving DecidableEq

namespace Outcome

/-- Status code the client receives from a run that returned: the one sent by `WriteHeader`,
or 200 when the handler returned without writing. -/
def statusCode (o : Outcome) : Nat :=
  match o.w.wroteHeader with
  | some (code, _) => code
  | none => 200

/-- The run panicked before anything was sent. -/
def abortedUnwritten (o : Outcome) : Bool :=
  o.panicked.isSome && o.w.wroteHeader.isNone && o.w.body.isEmpty

/-- Headers the client receives from a run that returned: those sent by the first
`WriteHeader`, or the header map at return when the handler wrote nothing. -/
def sentHeaders (o : Outcome) : List (String × String) :=
  match o.w.wroteHeader with
  | some (_, headers) => headers
  | none => o.w.header

end Outcome

/-- Encoding of the elements of `FulfillmentMessages`; the first failure ends it. -/
def marshalMessages {Msg : Type} (codec : JSONCodec Msg) : List Msg → Except String (List String)
  | [] => .ok []
  | m :: ms =>
    match codec.MarshalMessage m with
    | .error e => .error e
    | .ok t =>
      match marshalMessages codec ms with
      | .error e => .error e
      | .ok ts => .ok (t :: ts)

/-- Model of `json.Marshal` on an `NLPResponse`: one field per struct tag of lines 32-35, in
declaration order and none omitted. A confidence that is an infinity or a NaN is an
unsupported value; a nil map and a nil slice are encoded as `null`. -/
def marshalNLPResponse {Msg : Type} (codec : JSONCodec Msg) (r : NLPResponse Msg) :
    Except String (List (String × JsonValue)) :=
  if r.Confidence.isFinite then
    let entities : JsonValue :=
      match r.Entities with
      | none => .null
      | some m => .object m
    match r.FulfillmentMessages with
    | none =>
      .ok [("intent", .string r.Intent), ("confidence", .number r.Confidence),
           ("entities", entities), ("fulfillmentMessages", .null)]
    | some ms =>
      match marshalMessages codec ms with
      | .error e => .error e
      | .ok ts =>
        .ok [("intent", .string r.Intent), ("confidence", .number r.Confidence),
             ("entities", entities), ("fulfillmentMessages", .array ts)]
  else .error "json: unsupported value"

/-- Model of `json.NewEncoder(w).Encode(response)` with its error dropped, as at line 172:
the document is written only when the encoding succeeded. -/
def encodeTo {Msg : Type} (codec : JSONCodec Msg) (w : ResponseWriter) (response : NLPResponse Msg) :
    ResponseWriter :=
  match marshalNLPResponse codec response with
  | .ok fields => w.Write (.json fields)
  | .error _ => w

/-- Function `intentRequestHandler` (lines 137-174), with the global `dp` as a parameter.
The log lines are left out. -/
def intentRequestHandler {Msg : Type} (codec : JSONCodec Msg) (dp : DialogflowProcessor Msg)
    (w : ResponseWriter) (r : Request) : Outcome :=
  let w := w.headerSet "Access-Control-Allow-Origin" "*"
  let w := w.headerSet "Access-Control-Allow-Methods" "POST, OPTIONS"
  let w := w.headerSet "Access-Control-Allow-Headers"
    "Accept, Content-Type, Content-Length, Accept-Encoding, X-CSRF-Token, Authorization"
  if r.Method ≠ "POST" then
    { w := httpError w "Method is not supported." 404, trace := [], panicked := none }
  else if r.Method = "POST" then
    let w :=
      match r.BodyErr with
      | some _ => httpError w "Error reading reequest body" 500
      | none => w
    match codec.Unmarshal r.Body with
    | .error e => { w := w, trace := [.readBody], panicked := some (.jsonError e) }
    | .ok m =>
      match processNLP dp m.Question r.RemoteAddr with
      | .error e =>
        { w := w, trace := [.readBody, .processNLP m.Question r.RemoteAddr], panicked := some e }
      | .ok response =>
        let w := w.headerSet "Content-Type" "application/json"
        { w := encodeTo codec w response
          trace := [.readBody, .processNLP m.Question r.RemoteAddr]
          panicked := none }
  else { w := w, trace := [], panicked := none }

/-! ## Concrete inputs -/

/-- The contribution of one struct field to the flattened text (lines 113-121). -/
def fieldText (kv : String × Value) : String :=
  (if kv.1 = "amount" then
      match kv.2.GetNumberValue with
      | .ok x => FormatFloat x
      | .error _ => ""
    else "") ++
    ((if kv.1 = "unit" then
        match kv.2.GetStringValue with
        | .ok t => t
        | .error _ => ""
      else "") ++
      (if kv.1 = "date_time" then
        match kv.2.GetStringValue with
        | .ok t => t
        | .error _ => ""
      else ""))

/-- Concatenation of a list of texts, in order. -/
def concatTexts : List String → String
  | [] => ""
  | s :: rest => s ++ concatTexts rest

/-- The number 3 as a binary64. -/
def three : Float64 := ⟨0x4008000000000000⟩

/-- The number 5 as a binary64. -/
def five : Float64 := ⟨0x4014000000000000⟩

/-- A quiet NaN as a binary64. -/
def nan64 : Float64 := ⟨0x7FF8000000000000⟩

/-- A quiet NaN as a binary32. -/
def nan32 : Float32 := ⟨0x7FC00000⟩

/-- The confidence 0.5 as a binary32. -/
def half32 : Float32 := ⟨0x3F000000⟩

/-- A codec that decodes the one body used in the examples and encodes a message, here a
string, as itself. -/
def exampleCodec : JSONCodec String :=
  { Unmarshal := fun body =>
      if body = "\x7b\"question\": \"hi\"\x7d" then .ok ⟨"hi"⟩
      else .error "invalid character"
    MarshalMessage := fun m => .ok m }

/-- The processor configured as in `main`, with a client that gives `answer` to every call. -/
def exampleProcessor (answer : Except String (DetectIntentResponse String)) :
    DialogflowProcessor String :=
  { projectID := "chatfolio-q9qs"
    authJSONFilePath := "chatfolio-q9qs-b17009ca2aa1.json"
    lang := "en"
    timeZone := "America/Boston"
    sessionClient := fun _ => answer }

/-- A POST request carrying the question `hi`. -/
def examplePost : Request :=
  { Method := "POST", Host := "localhost:8888", RemoteAddr := "127.0.0.1:51234"
    Body := "\x7b\"question\": \"hi\"\x7d", BodyErr := none }

/-- A GET request to the same endpoint. -/
def exampleGet : Request :=
  { Method := "GET", Host := "localhost:8888", RemoteAddr := "127.0.0.1:51234"
    Body := "", BodyErr := none }

/-- A provider answer with an intent, two parameters and one message. -/
def answerWithIntent : DetectIntentResponse String :=
  { QueryResult := some
      { Intent := some ⟨"order.size"⟩
        IntentDetectionConfidence := half32
        FulfillmentMessages := some ["text: which size?"]
        Parameters := [("size", .NumberValue three), ("city", .ListValue [.StringValue "Boston"])] } }

/-- A provider answer without intent that still carries a message. -/
def answerWithoutIntent : DetectIntentResponse String :=
  { QueryResult := some
      { Intent := none
        IntentDetectionConfidence := ⟨0⟩
        FulfillmentMessages := some ["text: pardon?"]
        Parameters := [] } }

/-- A provider answer whose one parameter is an empty list. -/
def answerWithEmptyList : DetectIntentResponse String :=
  { QueryResult := some
      { Intent := some ⟨"order.size"⟩
        IntentDetectionConfidence := half32
        FulfillmentMessages := none
        Parameters := [("size", .ListValue [])] } }

/-- A provider answer whose confidence is a NaN. -/
def answerWithNaN : DetectIntentResponse String :=
  { QueryResult := some
      { Intent := some ⟨"order.size"⟩
        IntentDetectionConfidence := nan32
        FulfillmentMessages := none
        Parameters := [] } }

/-! # Properties -/

/-! ## Decimal digits -/

/-- Every digit below ten prints as a decimal digit character. -/
theorem digitChar_isDigit (k : Nat) (h : k < 10) : (Nat.digitChar k).isDigit = true := by
  interval_cases k <;> rfl

/-- Reading a printed digit gives the digit back. -/
theorem digitValue_digitChar (k : Nat) (h : k < 10) : digitValue (Nat.digitChar k) = k := by
  interval_cases k <;> rfl

/-- The printing loop of `Nat.toDigits` only adds decimal digit characters. -/
theorem toDigitsCore_isDigit (fuel : Nat) : ∀ (n : Nat) (acc : List Char),
    (∀ c ∈ acc, c.isDigit = true) → ∀ c ∈ Nat.toDigitsCore 10 fuel n acc, c.isDigit = true := by
  induction fuel with
  | zero => intro n acc h; simpa [Nat.toDigitsCore] using h
  | succ f ih =>
    intro n acc h
    have hd : ∀ c ∈ Nat.digitChar (n % 10) :: acc, c.isDigit = true := by
      intro c hc
      rcases List.mem_cons.1 hc with rfl | hc
      · exact digitChar_isDigit _ (Nat.mod_lt _ (by decide))
      · exact h c hc
    simp only [Nat.toDigitsCore]
    split
    · exact hd
    · exact ih _ _ hd

/-- The printing loop never shortens its accumulator to nothing. -/
theorem toDigitsCore_ne_nil (fuel : Nat) : ∀ (n : Nat) (acc : List Char),
    acc ≠ [] → Nat.toDigitsCore 10 fuel n acc ≠ [] := by
  induction fuel with
  | zero => intro n acc h; simpa [Nat.toDigitsCore] using h
  | succ f ih =>
    intro n acc _
    simp only [Nat.toDigitsCore]
    split
    · simp
    · exact ih _ _ (by simp)

/-- Reading back what the printing loop produced, with enough fuel, continues from `n`. -/
theorem toDigitsCore_value (fuel : Nat) : ∀ (n : Nat) (acc : List Char), n < fuel →
    (Nat.toDigitsCore 10 fuel n acc).foldl (fun a c => 10 * a + digitValue c) 0
      = acc.foldl (fun a c => 10 * a + digitValue c) n := by
  induction fuel with
  | zero => intro n acc h; omega
  | succ f ih =>
    intro n acc h
    simp only [Nat.toDigitsCore]
    split
    · rename_i h0
      simp only [List.foldl_cons, digitValue_digitChar _ (Nat.mod_lt n (by decide))]
      congr 1
      omega
    · rename_i h0
      rw [ih _ _ (by omega)]
      simp only [List.foldl_cons, digitValue_digitChar _ (Nat.mod_lt n (by decide))]
      congr 1
      omega

/-- The integer digits are decimal digit characters. -/
theorem toDigits_isDigit (n : Nat) : ∀ c ∈ Nat.toDigits 10 n, c.isDigit = true :=
  toDigitsCore_isDigit _ _ _ (by simp)

/-- There is at least one integer digit. -/
theorem toDigits_ne_nil (n : Nat) : Nat.toDigits 10 n ≠ [] := by
  unfold Nat.toDigits
  simp only [Nat.toDigitsCore]
  split
  · simp
  · exact toDigitsCore_ne_nil _ _ _ (by simp)

/-- The integer digits denote the number printed. -/
theorem decimalValue_toDigits (n : Nat) : decimalValue (Nat.toDigits 10 n) = n := by
  unfold decimalValue Nat.toDigits
  rw [toDigitsCore_value _ _ _ (Nat.lt_succ_self n)]
  rfl

/-- There are exactly six fraction digits. -/
theorem fracDigits_length (n : Nat) : (fracDigits n).length = 6 := rfl

/-- The fraction digits are decimal digit characters. -/
theorem fracDigits_isDigit (n : Nat) : ∀ c ∈ fracDigits n, c.isDigit = true := by
  intro c hc
  simp only [fracDigits, List.mem_cons, List.mem_singleton, List.mem_nil_iff, or_false] at hc
  rcases hc with rfl | rfl | rfl | rfl | rfl | rfl <;>
    exact digitChar_isDigit _ (Nat.mod_lt _ (by decide))

/-- The six fraction digits denote the fraction part. -/
theorem decimalValue_fracDigits (n : Nat) (h : n < 10 ^ 6) : decimalValue (fracDigits n) = n := by
  simp only [decimalValue, fracDigits, List.foldl_cons, List.foldl_nil,
    digitValue_digitChar _ (Nat.mod_lt _ (show 0 < 10 by decide))]
  omega

/-- Rounding half-to-even moves `num / den` by at most one half. -/
theorem roundHalfEven_bound (num den : Nat) (h : 0 < den) :
    2 * (roundHalfEven num den * den) ≤ 2 * num + den ∧
      2 * num ≤ 2 * (roundHalfEven num den * den) + den := by
  have hdm := Nat.div_add_mod num den
  have hr := Nat.mod_lt num h
  have hmul : (num / den + 1) * den = den * (num / den) + den := by ring
  have hmul0 : num / den * den = den * (num / den) := by ring
  unfold roundHalfEven
  simp only
  split_ifs <;>
    first
      | (rw [hmul]; omega)
      | (rw [hmul0]; omega)

/-- The rounded value lies within half a unit of the sixth decimal of the magnitude. -/
theorem scaledMicro_close (x : Float64) :
    |(scaledMicro x : ℚ) / 10 ^ 6 - x.magnitude| ≤ 1 / (2 * 10 ^ 6) := by
  unfold scaledMicro Float64.magnitude
  cases hE : x.exp2 with
  | ofNat e =>
    simp only [Int.ofNat_eq_coe, zpow_natCast]
    push_cast
    rw [mul_div_assoc]
    norm_num
  | negSucc k =>
    simp only [zpow_negSucc]
    obtain ⟨h1, h2⟩ := roundHalfEven_bound (x.mant * 10 ^ 6) (2 ^ (k + 1)) (by positivity)
    set N := roundHalfEven (x.mant * 10 ^ 6) (2 ^ (k + 1)) with hN
    have h1q : (2 : ℚ) * (N * 2 ^ (k + 1)) ≤ 2 * (x.mant * 10 ^ 6) + 2 ^ (k + 1) := by
      exact_mod_cast h1
    have h2q : (2 : ℚ) * (x.mant * 10 ^ 6) ≤ 2 * (N * 2 ^ (k + 1)) + 2 ^ (k + 1) := by
      exact_mod_cast h2
    have hp : (0 : ℚ) < 2 ^ (k + 1) := by positivity
    have key : (N : ℚ) / 10 ^ 6 - x.mant * (2 ^ (k + 1))⁻¹
        = (N * 2 ^ (k + 1) - x.mant * 10 ^ 6) / (10 ^ 6 * 2 ^ (k + 1)) := by
      field_simp
      ring
    rw [key, abs_le]
    constructor
    · rw [le_div_iff₀ (by positivity)]
      have : -(1 / (2 * 10 ^ 6 : ℚ)) * (10 ^ 6 * 2 ^ (k + 1)) = -(2 ^ (k + 1)) / 2 := by
        field_simp
        ring
      rw [this]
      linarith
    · rw [div_le_iff₀ (by positivity)]
      have : (1 / (2 * 10 ^ 6 : ℚ)) * (10 ^ 6 * 2 ^ (k + 1)) = (2 ^ (k + 1)) / 2 := by
        field_simp
        ring
      rw [this]
      linarith

/-! ## Entity flattening -/

/-- For a finite value `FormatFloat` takes the `fmtF` branch. -/
theorem FormatFloat_finite (x : Float64) (h : x.isFinite = true) :
    FormatFloat x = String.mk (fmtF x.neg (scaledMicro x)) := by
  have h' : x.expField ≠ 2047 := by simpa [Float64.isFinite] using h
  simp [FormatFloat, h']

/-- The text of a finite value is a fixed-point numeral with six decimals denoting it. -/
theorem FormatFloat_isFixedPoint6 (x : Float64) (h : x.isFinite = true) :
    IsFixedPoint6 (FormatFloat x) x.neg x.magnitude := by
  refine ⟨Nat.toDigits 10 (scaledMicro x / 10 ^ 6), fracDigits (scaledMicro x % 10 ^ 6),
    ?_, toDigits_ne_nil _, toDigits_isDigit _, fracDigits_length _, fracDigits_isDigit _, ?_⟩
  · rw [FormatFloat_finite x h]; rfl
  · rw [decimalValue_toDigits, decimalValue_fracDigits _ (Nat.mod_lt _ (by norm_num))]
    have hsplit : ((scaledMicro x / 10 ^ 6 : Nat) : ℚ) + ((scaledMicro x % 10 ^ 6 : Nat) : ℚ) / 10 ^ 6
        = (scaledMicro x : ℚ) / 10 ^ 6 := by
      have := Nat.div_add_mod (scaledMicro x) (10 ^ 6)
      have hq : ((10 ^ 6 * (scaledMicro x / 10 ^ 6) + scaledMicro x % 10 ^ 6 : Nat) : ℚ)
          = (scaledMicro x : ℚ) := by exact_mod_cast this
      rw [← hq]
      push_cast
      field_simp
      ring
    rw [hsplit]
    exact scaledMicro_close x

/-- A text without a decimal point is no fixed-point numeral. -/
theorem not_isFixedPoint6_of_no_point (s : String) (h : '.' ∉ s.data) (neg : Bool) (mag : ℚ) :
    ¬ IsFixedPoint6 s neg mag := by
  rintro ⟨ip, fp, hs, -⟩
  apply h
  rw [hs]
  simp

/-- C2: a list value with at least one element flattens to what its first element flattens
to, whatever follows the first element -/
theorem extract_list_is_first_element (v : Value) (vs : List Value) :
    extractDialogflowEntities (.ListValue (v :: vs)) = extractDialogflowEntities v := by
  simp [extractDialogflowEntities]

/-- C3: a string value flattens to its string, so flattening the string value of a flattened
text gives that text again; `true` and `false` flatten to their names; a null value, a value
with no kind set, a nil value and a nil null wrapper flatten to the empty string -/
theorem extract_scalar_kinds :
    (∀ s : String, extractDialogflowEntities (.StringValue s) = .ok s) ∧
    (∀ v : Value,
      (extractDialogflowEntities v).bind (fun s => extractDialogflowEntities (.StringValue s))
        = extractDialogflowEntities v) ∧
    extractDialogflowEntities (.BoolValue true) = .ok "true" ∧
    extractDialogflowEntities (.BoolValue false) = .ok "false" ∧
    extractDialogflowEntities .NullValue = .ok "" ∧
    extractDialogflowEntities .unset = .ok "" ∧
    extractDialogflowEntities .nilValue = .ok "" ∧
    extractDialogflowEntities (.typedNil .null) = .ok "" :=
  ⟨fun _ => rfl,
   fun v => by cases h : extractDialogflowEntities v <;> rfl,
   rfl, rfl, rfl, rfl, rfl, rfl⟩

/-- C4 (as amended): for every finite number value, `extractDialogflowEntities` returns a
fixed-point decimal text without exponent, with exactly six digits after the decimal point,
that denotes the number rounded to six decimals; the number 3 flattens to `3.000000` -/
theorem extract_number_fixed_point (x : Float64) (h : x.isFinite = true) :
    (∃ s, extractDialogflowEntities (.NumberValue x) = .ok s ∧
      IsFixedPoint6 s x.neg x.magnitude) ∧
    extractDialogflowEntities (.NumberValue three) = .ok "3.000000" :=
  ⟨⟨FormatFloat x, rfl, FormatFloat_isFixedPoint6 x h⟩, by decide⟩

/-- C4, at a concrete input: the number 5 -/
theorem extract_number_fixed_point_witness :
    five.isFinite = true ∧
    ∃ s, extractDialogflowEntities (.NumberValue five) = .ok s ∧
      IsFixedPoint6 s five.neg five.magnitude :=
  ⟨by decide, (extract_number_fixed_point five (by decide)).1⟩

/-- C4, counterexample: the number value NaN flattens to `NaN`, a text without a decimal
point -/
theorem extract_number_nan_not_fixed_point :
    extractDialogflowEntities (.NumberValue nan64) = .ok "NaN" ∧
      ∀ neg mag, ¬ IsFixedPoint6 "NaN" neg mag :=
  ⟨by decide, fun neg mag => not_isFixedPoint6_of_no_point _ (by decide) neg mag⟩

/-- One pass of the loop body either reads a nil wrapper and panics, or appends the text of
the field visited. -/
theorem structStep_eq (acc : String) (kv : String × Value) :
    structStep acc kv =
      if fieldReadsNilWrapper kv = true then .error .nilDereference
      else .ok (acc ++ fieldText kv) := by
  obtain ⟨key, value⟩ := kv
  by_cases h1 : key = "amount"
  · subst h1
    cases value with
    | typedNil k =>
      cases k <;>
        simp [structStep, fieldText, fieldReadsNilWrapper, Value.GetNumberValue,
          Value.GetStringValue, Except.bind, Except.map]
    | _ =>
      simp [structStep, fieldText, fieldReadsNilWrapper, Value.GetNumberValue,
        Value.GetStringValue, Except.bind, Except.map]
  · by_cases h2 : key = "unit"
    · subst h2
      cases value with
      | typedNil k =>
        cases k <;>
          simp [structStep, fieldText, fieldReadsNilWrapper, Value.GetNumberValue,
            Value.GetStringValue, Except.bind, Except.map]
      | _ =>
        simp [structStep, fieldText, fieldReadsNilWrapper, Value.GetNumberValue,
          Value.GetStringValue, Except.bind, Except.map]
    · by_cases h3 : key = "date_time"
      · subst h3
        cases value with
        | typedNil k =>
          cases k <;>
            simp [structStep, fieldText, fieldReadsNilWrapper, Value.GetNumberValue,
              Value.GetStringValue, Except.bind, Except.map]
        | _ =>
          simp [structStep, fieldText, fieldReadsNilWrapper, Value.GetNumberValue,
            Value.GetStringValue, Except.bind, Except.map]
      · simp [structStep, fieldText, fieldReadsNilWrapper, Except.bind, h1, h2, h3]

/-- The loop panics when some pass reads a nil wrapper, and otherwise appends the texts of
the fields in the order it visits them. -/
theorem structLoop_eq (fields : List (String × Value)) : ∀ acc : String,
    structLoop fields acc =
      if fields.any fieldReadsNilWrapper = true then .error .nilDereference
      else .ok (acc ++ concatTexts (fields.map fieldText)) := by
  induction fields with
  | nil => intro acc; simp [structLoop, concatTexts]
  | cons kv rest ih =>
    intro acc
    rw [structLoop, structStep_eq]
    by_cases hkv : fieldReadsNilWrapper kv = true
    · simp [hkv]
    · simp only [hkv, if_false, ih, List.any_cons, Bool.not_eq_true] at *
      by_cases hr : rest.any fieldReadsNilWrapper = true
      · simp [hr]
      · simp [hr, hkv, List.map_cons, concatTexts, String.append_assoc]

/-- A struct value none of whose passes reads a nil wrapper flattens to the texts of its
fields, concatenated in visiting order; a field that is none of `amount`, `unit`,
`date_time` has the empty text. -/
theorem extract_struct_in_visit_order (fields : List (String × Value))
    (h : fields.any fieldReadsNilWrapper = false) :
    extractDialogflowEntities (.StructValue fields)
      = .ok (concatTexts (fields.map fieldText)) := by
  simp [extractDialogflowEntities, structLoop_eq, h]

/-- Flattening has exactly three outcomes, told apart by the chain of first elements: an index
out of range at an empty list, a nil dereference at a nil wrapper, a string otherwise. -/
theorem extract_cases : ∀ v : Value,
    (reachesEmptyList v = true ∧ reachesNilWrapper v = false ∧
      extractDialogflowEntities v = .error .indexOutOfRange) ∨
    (reachesEmptyList v = false ∧ reachesNilWrapper v = true ∧
      extractDialogflowEntities v = .error .nilDereference) ∨
    (reachesEmptyList v = false ∧ reachesNilWrapper v = false ∧
      ∃ s, extractDialogflowEntities v = .ok s)
  | .nilValue => Or.inr (Or.inr ⟨rfl, rfl, _, rfl⟩)
  | .unset => Or.inr (Or.inr ⟨rfl, rfl, _, rfl⟩)
  | .NullValue => Or.inr (Or.inr ⟨rfl, rfl, _, rfl⟩)
  | .NumberValue _ => Or.inr (Or.inr ⟨rfl, rfl, _, rfl⟩)
  | .StringValue _ => Or.inr (Or.inr ⟨rfl, rfl, _, rfl⟩)
  | .BoolValue _ => Or.inr (Or.inr ⟨rfl, rfl, _, rfl⟩)
  | .typedNil .null => Or.inr (Or.inr ⟨rfl, rfl, _, rfl⟩)
  | .typedNil .number => Or.inr (Or.inl ⟨rfl, rfl, rfl⟩)
  | .typedNil .string => Or.inr (Or.inl ⟨rfl, rfl, rfl⟩)
  | .typedNil .bool => Or.inr (Or.inl ⟨rfl, rfl, rfl⟩)
  | .typedNil .struct => Or.inr (Or.inl ⟨rfl, rfl, rfl⟩)
  | .typedNil .list => Or.inr (Or.inl ⟨rfl, rfl, rfl⟩)
  | .StructValue fields => by
    by_cases h : fields.any fieldReadsNilWrapper = true
    · exact Or.inr (Or.inl ⟨rfl, by simpa [reachesNilWrapper] using h,
        by simp [extractDialogflowEntities, structLoop_eq, h]⟩)
    · exact Or.inr (Or.inr ⟨rfl, by simpa [reachesNilWrapper] using h,
        concatTexts (fields.map fieldText),
        by simp [extractDialogflowEntities, structLoop_eq, h]⟩)
  | .ListValue [] => Or.inl ⟨rfl, rfl, rfl⟩
  | .ListValue (v :: vs) => by
    have ih := extract_cases v
    simpa [extractDialogflowEntities, reachesEmptyList, reachesNilWrapper] using ih

/-- C10 (as amended): `extractDialogflowEntities` is total; it fails with an index out of
range exactly when the chain of first elements through list values reaches an empty list,
with a nil dereference exactly when that chain reaches a nil wrapper the code reads, and it
returns a string for every other value, such as a struct holding an empty list or a list
whose later element is an empty list -/
theorem extract_fails_iff_reaches_empty_list_or_nil_wrapper (v : Value) :
    (extractDialogflowEntities v = .error .indexOutOfRange ↔ reachesEmptyList v = true) ∧
    (extractDialogflowEntities v = .error .nilDereference ↔ reachesNilWrapper v = true) ∧
    ((∃ e, extractDialogflowEntities v = .error e) ↔
      (reachesEmptyList v = true ∨ reachesNilWrapper v = true)) ∧
    ((∃ s, extractDialogflowEntities v = .ok s) ↔
      (reachesEmptyList v = false ∧ reachesNilWrapper v = false)) ∧
    extractDialogflowEntities (.StructValue [("unit", .ListValue []), ("x", .StructValue [])])
      = .ok "" ∧
    extractDialogflowEntities (.ListValue [.StringValue "a", .ListValue []]) = .ok "a" ∧
    extractDialogflowEntities (.ListValue [.ListValue [.ListValue []], .StringValue "a"])
      = .error .indexOutOfRange := by
  refine ⟨?_, ?_, ?_, ?_, by decide, by decide, by decide⟩
  · rcases extract_cases v with ⟨h1, h2, h3⟩ | ⟨h1, h2, h3⟩ | ⟨h1, h2, s, h3⟩ <;>
      simp [h1, h3]
  · rcases extract_cases v with ⟨h1, h2, h3⟩ | ⟨h1, h2, h3⟩ | ⟨h1, h2, s, h3⟩ <;>
      simp [h2, h3]
  · rcases extract_cases v with ⟨h1, h2, h3⟩ | ⟨h1, h2, h3⟩ | ⟨h1, h2, s, h3⟩ <;>
      simp [h1, h2, h3]
  · rcases extract_cases v with ⟨h1, h2, h3⟩ | ⟨h1, h2, h3⟩ | ⟨h1, h2, s, h3⟩ <;>
      simp [h1, h2, h3]

/-- C10, counterexample: a value whose `Kind` holds a nil string wrapper, and a struct whose
field `amount` holds a nil number wrapper, reach no empty list and yet fail, with a nil
dereference -/
theorem extract_nil_wrapper_fails_without_empty_list :
    reachesEmptyList (.typedNil .string) = false ∧
    extractDialogflowEntities (.typedNil .string) = .error .nilDereference ∧
    reachesEmptyList (.StructValue [("amount", .typedNil .number)]) = false ∧
    extractDialogflowEntities (.StructValue [("amount", .typedNil .number)])
      = .error .nilDereference :=
  ⟨rfl, rfl, rfl, by decide⟩

/-- C1: the struct with the fields `amount = 5` and `unit = "kg"` flattens to `5.000000kg`
when the loop visits `amount` first and to `kg5.000000` when it visits `unit` first -/
theorem extract_struct_depends_on_visit_order :
    List.Perm [("amount", Value.NumberValue five), ("unit", Value.StringValue "kg")]
      [("unit", Value.StringValue "kg"), ("amount", Value.NumberValue five)] ∧
    extractDialogflowEntities
      (.StructValue [("amount", .NumberValue five), ("unit", .StringValue "kg")])
      = .ok "5.000000kg" ∧
    extractDialogflowEntities
      (.StructValue [("unit", .StringValue "kg"), ("amount", .NumberValue five)])
      = .ok "kg5.000000" :=
  ⟨List.Perm.swap _ _ _, by decide, by decide⟩

/-! ## Map assignment -/

/-- Keys after `m[k] = v`: those of `m`, and `k`. -/
theorem mem_keys_mapAssign {β : Type} (m : List (String × β)) (k : String) (v : β) (k' : String) :
    k' ∈ (mapAssign m k v).map Prod.fst ↔ k' ∈ m.map Prod.fst ∨ k' = k := by
  induction m with
  | nil => simp [mapAssign]
  | cons kv rest ih =>
    obtain ⟨a, b⟩ := kv
    by_cases hak : a = k
    · subst hak
      simp only [mapAssign, if_true, List.map_cons, List.mem_cons]
      tauto
    · simp only [mapAssign, if_neg hak, List.map_cons, List.mem_cons, ih]
      tauto

/-- Reading after `m[k] = v`. -/
theorem lookup_mapAssign {β : Type} (m : List (String × β)) (k : String) (v : β) (k' : String) :
    (mapAssign m k v).lookup k' = if k' = k then some v else m.lookup k' := by
  induction m with
  | nil =>
    by_cases h : k' = k
    · simp [mapAssign, List.lookup, h]
    · have hb : (k' == k) = false := by simpa using h
      simp [mapAssign, List.lookup, h, hb]
  | cons kv rest ih =>
    obtain ⟨a, b⟩ := kv
    by_cases hak : a = k
    · subst hak
      by_cases h : k' = a
      · simp [mapAssign, List.lookup, h]
      · have hb : (k' == a) = false := by simpa using h
        simp [mapAssign, List.lookup, h, hb]
    · by_cases h' : k' = a
      · subst h'
        simp [mapAssign, List.lookup, hak]
      · have hb : (k' == a) = false := by simpa using h'
        simp [mapAssign, List.lookup, hak, hb, ih]

/-! ## The parameter loop -/

/-- A value that can be flattened can be read by `GetStringValue`. -/
theorem GetStringValue_ok_of_extract_ok (p : Value) (s : String)
    (h : extractDialogflowEntities p = .ok s) : ∃ t, p.GetStringValue = .ok t := by
  cases p with
  | typedNil k =>
    cases k <;> first
      | exact ⟨_, rfl⟩
      | simp [extractDialogflowEntities] at h
  | _ => exact ⟨_, rfl⟩

/-- The parameter loop over flattenable parameters with distinct names returns; it adds
exactly the parameter names to the entity map, each with its flattened value. -/
theorem paramLoop_ok {Msg : Type} (params : List (String × Value)) :
    ∀ (r : NLPResponse Msg) (m : List (String × String)), r.Entities = some m →
      (∀ kv ∈ params, ∃ s, extractDialogflowEntities kv.2 = .ok s) →
      (params.map Prod.fst).Nodup →
      ∃ (r' : NLPResponse Msg) (m' : List (String × String)),
        paramLoop params r = .ok r' ∧ r'.Entities = some m' ∧
        r'.Intent = r.Intent ∧ r'.Confidence = r.Confidence ∧
        r'.FulfillmentMessages = r.FulfillmentMessages ∧
        (∀ k, k ∈ m'.map Prod.fst ↔ k ∈ m.map Prod.fst ∨ k ∈ params.map Prod.fst) ∧
        (∀ k, k ∉ params.map Prod.fst → m'.lookup k = m.lookup k) ∧
        (∀ kv ∈ params, ∃ s, extractDialogflowEntities kv.2 = .ok s ∧ m'.lookup kv.1 = some s) := by
  induction params with
  | nil =>
    intro r m hm _ _
    exact ⟨r, m, rfl, hm, rfl, rfl, rfl, by simp, by simp, by simp⟩
  | cons kv rest ih =>
    intro r m hm hflat hnd
    obtain ⟨paramName, p⟩ := kv
    obtain ⟨s, hs⟩ := hflat (paramName, p) (List.mem_cons_self _ _)
    simp only [List.map_cons, List.nodup_cons] at hnd
    obtain ⟨hnotin, hnd'⟩ := hnd
    obtain ⟨r', m', hloop, hent, hi, hc, hf, hkeys, hother, hvals⟩ :=
      ih { Intent := r.Intent, Confidence := r.Confidence,
           Entities := some (mapAssign m paramName s),
           FulfillmentMessages := r.FulfillmentMessages } (mapAssign m paramName s) rfl
        (fun kv hkv => hflat kv (List.mem_cons_of_mem _ hkv)) hnd'
    refine ⟨r', m', ?_, hent, hi, hc, hf, ?_, ?_, ?_⟩
    · obtain ⟨t, ht⟩ := GetStringValue_ok_of_extract_ok p s hs
      simp only [paramLoop, ht, hs, assignEntity, hm]
      exact hloop
    · intro k
      rw [hkeys k, mem_keys_mapAssign]
      simp only [List.map_cons, List.mem_cons]
      tauto
    · intro k hk
      simp only [List.map_cons, List.mem_cons, not_or] at hk
      rw [hother k hk.2, lookup_mapAssign, if_neg hk.1]
    · intro kv hkv
      rcases List.mem_cons.1 hkv with rfl | hkv
      · refine ⟨s, hs, ?_⟩
        rw [hother _ hnotin, lookup_mapAssign, if_pos rfl]
      · exact hvals kv hkv

/-- The result of `processNLP` on a successful response with a query result, flattenable
parameters and distinct parameter names. -/
theorem processNLP_ok {Msg : Type} (dp : DialogflowProcessor Msg) (rawMessage username : String)
    (response : DetectIntentResponse Msg) (queryResult : QueryResult Msg)
    (hcall : dp.sessionClient (detectIntentRequest dp rawMessage username) = .ok response)
    (hqr : response.QueryResult = some queryResult)
    (hflat : ∀ kv ∈ queryResult.Parameters, ∃ s, extractDialogflowEntities kv.2 = .ok s)
    (hnd : (queryResult.Parameters.map Prod.fst).Nodup) :
    ∃ (r : NLPResponse Msg) (m : List (String × String)),
      processNLP dp rawMessage username = .ok r ∧ r.Entities = some m ∧
      r.Intent = (match queryResult.Intent with
        | some intent => intent.DisplayName
        | none => "") ∧
      r.Confidence = (match queryResult.Intent with
        | some _ => queryResult.IntentDetectionConfidence
        | none => ⟨0⟩) ∧
      r.FulfillmentMessages = (match queryResult.Intent with
        | some _ => queryResult.FulfillmentMessages
        | none => none) ∧
      (∀ k, k ∈ m.map Prod.fst ↔ k ∈ queryResult.Parameters.map Prod.fst) ∧
      (∀ kv ∈ queryResult.Parameters,
        ∃ s, extractDialogflowEntities kv.2 = .ok s ∧ m.lookup kv.1 = some s) := by
  obtain ⟨r', m', hloop, hent, hi, hc, hf, hkeys, -, hvals⟩ :=
    paramLoop_ok queryResult.Parameters
      ({ Intent := (match queryResult.Intent with
            | some intent => intent.DisplayName
            | none => "")
         Confidence := (match queryResult.Intent with
            | some _ => queryResult.IntentDetectionConfidence
            | none => ⟨0⟩)
         Entities := some []
         FulfillmentMessages := (match queryResult.Intent with
            | some _ => queryResult.FulfillmentMessages
            | none => none) } : NLPResponse Msg) [] rfl hflat hnd
  refine ⟨r', m', ?_, hent, hi, hc, hf, by simpa using hkeys, hvals⟩
  unfold processNLP
  simp only [hcall, hqr]
  cases hI : queryResult.Intent with
  | none =>
    simp only [hI] at hloop
    cases hP : queryResult.Parameters with
    | nil => simp only [hP] at hloop; simpa [paramLoop, NLPResponse.zero] using hloop
    | cons kv rest => simp only [hP] at hloop; simpa [NLPResponse.zero] using hloop
  | some intent =>
    simp only [hI] at hloop
    cases hP : queryResult.Parameters with
    | nil => simp only [hP] at hloop; simpa [paramLoop, NLPResponse.zero] using hloop
    | cons kv rest => simp only [hP] at hloop; simpa [NLPResponse.zero] using hloop


/-- The parameter loop over flattenable parameters returns and touches only the entity map. -/
theorem paramLoop_returns {Msg : Type} (params : List (String × Value)) :
    ∀ (r : NLPResponse Msg) (m : List (String × String)), r.Entities = some m →
      (∀ kv ∈ params, ∃ s, extractDialogflowEntities kv.2 = .ok s) →
      ∃ (r' : NLPResponse Msg) (m' : List (String × String)),
        paramLoop params r = .ok r' ∧ r'.Entities = some m' ∧
        r'.Intent = r.Intent ∧ r'.Confidence = r.Confidence ∧
        r'.FulfillmentMessages = r.FulfillmentMessages := by
  induction params with
  | nil =>
    intro r m hm _
    exact ⟨r, m, rfl, hm, rfl, rfl, rfl⟩
  | cons kv rest ih =>
    intro r m hm hflat
    obtain ⟨paramName, p⟩ := kv
    obtain ⟨s, hs⟩ := hflat (paramName, p) (List.mem_cons_self _ _)
    obtain ⟨r', m', hloop, hent, hi, hc, hf⟩ :=
      ih { Intent := r.Intent, Confidence := r.Confidence,
           Entities := some (mapAssign m paramName s),
           FulfillmentMessages := r.FulfillmentMessages } (mapAssign m paramName s) rfl
        (fun kv hkv => hflat kv (List.mem_cons_of_mem _ hkv))
    refine ⟨r', m', ?_, hent, hi, hc, hf⟩
    obtain ⟨t, ht⟩ := GetStringValue_ok_of_extract_ok p s hs
    simp only [paramLoop, ht, hs, assignEntity, hm]
    exact hloop

/-- The fields other than the entity map that `processNLP` returns on a successful response
with a query result and flattenable parameters. -/
theorem processNLP_returns {Msg : Type} (dp : DialogflowProcessor Msg) (rawMessage username : String)
    (response : DetectIntentResponse Msg) (queryResult : QueryResult Msg)
    (hcall : dp.sessionClient (detectIntentRequest dp rawMessage username) = .ok response)
    (hqr : response.QueryResult = some queryResult)
    (hflat : ∀ kv ∈ queryResult.Parameters, ∃ s, extractDialogflowEntities kv.2 = .ok s) :
    ∃ r : NLPResponse Msg,
      processNLP dp rawMessage username = .ok r ∧
      r.Intent = (match queryResult.Intent with
        | some intent => intent.DisplayName
        | none => "") ∧
      r.Confidence = (match queryResult.Intent with
        | some _ => queryResult.IntentDetectionConfidence
        | none => ⟨0⟩) ∧
      r.FulfillmentMessages = (match queryResult.Intent with
        | some _ => queryResult.FulfillmentMessages
        | none => none) := by
  obtain ⟨r', m', hloop, -, hi, hc, hf⟩ :=
    paramLoop_returns queryResult.Parameters
      ({ Intent := (match queryResult.Intent with
            | some intent => intent.DisplayName
            | none => "")
         Confidence := (match queryResult.Intent with
            | some _ => queryResult.IntentDetectionConfidence
            | none => ⟨0⟩)
         Entities := some []
         FulfillmentMessages := (match queryResult.Intent with
            | some _ => queryResult.FulfillmentMessages
            | none => none) } : NLPResponse Msg) [] rfl hflat
  refine ⟨r', ?_, hi, hc, hf⟩
  unfold processNLP
  simp only [hcall, hqr]
  cases hI : queryResult.Intent with
  | none =>
    simp only [hI] at hloop
    cases hP : queryResult.Parameters with
    | nil => simp only [hP] at hloop; simpa [paramLoop, NLPResponse.zero] using hloop
    | cons kv rest => simp only [hP] at hloop; simpa [NLPResponse.zero] using hloop
  | some intent =>
    simp only [hI] at hloop
    cases hP : queryResult.Parameters with
    | nil => simp only [hP] at hloop; simpa [paramLoop, NLPResponse.zero] using hloop
    | cons kv rest => simp only [hP] at hloop; simpa [NLPResponse.zero] using hloop

/-! ## The adapter -/

/-- C5 (as amended): for every successful provider response that carries a query result and
whose parameter values can all be flattened, `processNLP` returns a result whose entity map
is non-nil, has exactly the parameter names as keys, and maps every name to the flattened
value of that parameter -/
theorem processNLP_entities_populated {Msg : Type} (dp : DialogflowProcessor Msg)
    (rawMessage username : String) (response : DetectIntentResponse Msg)
    (queryResult : QueryResult Msg)
    (hcall : dp.sessionClient (detectIntentRequest dp rawMessage username) = .ok response)
    (hqr : response.QueryResult = some queryResult)
    (hflat : ∀ kv ∈ queryResult.Parameters, ∃ s, extractDialogflowEntities kv.2 = .ok s)
    (hnd : (queryResult.Parameters.map Prod.fst).Nodup) :
    ∃ (r : NLPResponse Msg) (m : List (String × String)),
      processNLP dp rawMessage username = .ok r ∧ r.Entities = some m ∧
      (∀ k, k ∈ m.map Prod.fst ↔ k ∈ queryResult.Parameters.map Prod.fst) ∧
      (∀ kv ∈ queryResult.Parameters,
        ∃ s, extractDialogflowEntities kv.2 = .ok s ∧ m.lookup kv.1 = some s) := by
  obtain ⟨r, m, h1, h2, -, -, -, h3, h4⟩ :=
    processNLP_ok dp rawMessage username response queryResult hcall hqr hflat hnd
  exact ⟨r, m, h1, h2, h3, h4⟩

/-- Both parameters of `answerWithIntent` can be flattened. -/
theorem answerWithIntent_flat :
    ∀ kv ∈ [("size", Value.NumberValue three), ("city", Value.ListValue [.StringValue "Boston"])],
      ∃ s, extractDialogflowEntities kv.2 = .ok s := by
  intro kv hkv
  simp only [List.mem_cons, List.mem_singleton, List.mem_nil_iff, or_false] at hkv
  rcases hkv with rfl | rfl <;> exact ⟨_, rfl⟩

/-- C5, at a concrete input: a response with the parameters `size = 3` and `city = ["Boston"]` -/
theorem processNLP_entities_populated_witness :
    ∃ (r : NLPResponse String) (m : List (String × String)),
      processNLP (exampleProcessor (.ok answerWithIntent)) "hi" "127.0.0.1:51234" = .ok r ∧
      r.Entities = some m ∧
      (∀ k, k ∈ m.map Prod.fst ↔ k ∈ ["size", "city"]) ∧
      (∀ kv ∈ [("size", Value.NumberValue three), ("city", Value.ListValue [.StringValue "Boston"])],
        ∃ s, extractDialogflowEntities kv.2 = .ok s ∧ m.lookup kv.1 = some s) :=
  processNLP_entities_populated (exampleProcessor (.ok answerWithIntent)) "hi" "127.0.0.1:51234"
    answerWithIntent _ rfl rfl answerWithIntent_flat (by decide)

/-- C5, counterexample: a successful response without query result, which has no parameter
at all, makes `processNLP` panic on the nil dereference of line 82 -/
theorem processNLP_without_query_result_panics :
    (exampleProcessor (.ok ⟨none⟩)).sessionClient
        (detectIntentRequest (exampleProcessor (.ok ⟨none⟩)) "hi" "127.0.0.1:51234")
      = .ok (⟨none⟩ : DetectIntentResponse String) ∧
    processNLP (exampleProcessor (.ok ⟨none⟩)) "hi" "127.0.0.1:51234"
      = .error .nilDereference :=
  ⟨rfl, rfl⟩

/-- Whenever the parameter loop returns, it has touched only the entity map. -/
theorem paramLoop_preserves {Msg : Type} (params : List (String × Value)) :
    ∀ (r r' : NLPResponse Msg), paramLoop params r = .ok r' →
      r'.Intent = r.Intent ∧ r'.Confidence = r.Confidence ∧
      r'.FulfillmentMessages = r.FulfillmentMessages := by
  induction params with
  | nil =>
    intro r r' h
    simp only [paramLoop, Except.ok.injEq] at h
    subst h
    exact ⟨rfl, rfl, rfl⟩
  | cons kv rest ih =>
    intro r r' h
    obtain ⟨paramName, p⟩ := kv
    simp only [paramLoop] at h
    cases hG : p.GetStringValue with
    | error e => simp [hG] at h
    | ok t =>
      cases hE : extractDialogflowEntities p with
      | error e => simp [hG, hE] at h
      | ok s =>
        cases hM : r.Entities with
        | none => simp [hG, hE, assignEntity, hM] at h
        | some m =>
          simp only [hG, hE, assignEntity, hM] at h
          exact ih { Intent := r.Intent, Confidence := r.Confidence,
                     Entities := some (mapAssign m paramName s),
                     FulfillmentMessages := r.FulfillmentMessages } r' h

/-- Whenever `processNLP` returns on a successful response, the response carries a query
result, and the messages returned are those of the query result under an intent and none
without one. -/
theorem processNLP_messages_of_ok {Msg : Type} (dp : DialogflowProcessor Msg)
    (rawMessage username : String) (response : DetectIntentResponse Msg)
    (hcall : dp.sessionClient (detectIntentRequest dp rawMessage username) = .ok response)
    (r : NLPResponse Msg) (hr : processNLP dp rawMessage username = .ok r) :
    ∃ queryResult, response.QueryResult = some queryResult ∧
      r.FulfillmentMessages = (match queryResult.Intent with
        | some _ => queryResult.FulfillmentMessages
        | none => none) := by
  unfold processNLP at hr
  simp only [hcall] at hr
  cases hq : response.QueryResult with
  | none => simp [hq] at hr
  | some queryResult =>
    refine ⟨queryResult, rfl, ?_⟩
    simp only [hq] at hr
    split at hr
    · obtain ⟨-, -, h3⟩ := paramLoop_preserves _ _ _ hr
      rw [h3]
      cases queryResult.Intent <;> rfl
    · simp only [Except.ok.injEq] at hr
      subst hr
      cases queryResult.Intent <;> rfl

/-- C6 (as amended): for every successful provider response, whenever `processNLP` returns a
result its fulfillment messages are the provider's, unchanged, if the provider identified an
intent, and none if it did not; it does return a result when the response carries a query
result whose parameter values can all be flattened -/
theorem processNLP_fulfillment_messages {Msg : Type} (dp : DialogflowProcessor Msg)
    (rawMessage username : String) (response : DetectIntentResponse Msg)
    (hcall : dp.sessionClient (detectIntentRequest dp rawMessage username) = .ok response) :
    (∀ r, processNLP dp rawMessage username = .ok r →
      ∃ queryResult, response.QueryResult = some queryResult ∧
        (queryResult.Intent.isSome = true →
          r.FulfillmentMessages = queryResult.FulfillmentMessages) ∧
        (queryResult.Intent = none → r.FulfillmentMessages = none)) ∧
    (∀ queryResult, response.QueryResult = some queryResult →
      (∀ kv ∈ queryResult.Parameters, ∃ s, extractDialogflowEntities kv.2 = .ok s) →
      ∃ r, processNLP dp rawMessage username = .ok r) := by
  constructor
  · intro r hr
    obtain ⟨queryResult, hq, hm⟩ :=
      processNLP_messages_of_ok dp rawMessage username response hcall r hr
    refine ⟨queryResult, hq, ?_, ?_⟩
    · intro hI
      cases hi : queryResult.Intent with
      | none => simp [hi] at hI
      | some i => simpa [hi] using hm
    · intro hI
      simpa [hI] using hm
  · intro queryResult hq hflat
    obtain ⟨r, h1, -⟩ :=
      processNLP_returns dp rawMessage username response queryResult hcall hq hflat
    exact ⟨r, h1⟩

/-- C6, at a concrete input: an answer with an intent and one message -/
theorem processNLP_fulfillment_messages_witness :
    ∃ r : NLPResponse String,
      processNLP (exampleProcessor (.ok answerWithIntent)) "hi" "127.0.0.1:51234" = .ok r ∧
      r.FulfillmentMessages = some ["text: which size?"] := by
  obtain ⟨h1, h2⟩ :=
    processNLP_fulfillment_messages (exampleProcessor (.ok answerWithIntent)) "hi"
      "127.0.0.1:51234" answerWithIntent rfl
  obtain ⟨r, hr⟩ := h2 _ rfl answerWithIntent_flat
  obtain ⟨queryResult, hq, hsome, -⟩ := h1 r hr
  have hq' : queryResult = { Intent := some ⟨"order.size"⟩
                             IntentDetectionConfidence := half32
                             FulfillmentMessages := some ["text: which size?"]
                             Parameters := [("size", .NumberValue three),
                               ("city", .ListValue [.StringValue "Boston"])] } := by
    simp only [answerWithIntent, Option.some.injEq] at hq
    exact hq.symm
  subst hq'
  exact ⟨r, hr, hsome rfl⟩

/-- C6, counterexample: the provider identified no intent and sent one message; the result of
`processNLP` has no fulfillment messages -/
theorem processNLP_drops_messages_without_intent :
    (exampleProcessor (.ok answerWithoutIntent)).sessionClient
        (detectIntentRequest (exampleProcessor (.ok answerWithoutIntent)) "hi" "127.0.0.1:51234")
      = .ok answerWithoutIntent ∧
    processNLP (exampleProcessor (.ok answerWithoutIntent)) "hi" "127.0.0.1:51234"
      = .ok { Intent := "", Confidence := ⟨0⟩, Entities := some [], FulfillmentMessages := none } ∧
    (none : Option (List String)) ≠ some ["text: pardon?"] :=
  ⟨rfl, rfl, by decide⟩

/-! ## The endpoint -/

/-- Messages that the codec encodes one by one are encoded as a list. -/
theorem marshalMessages_ok {Msg : Type} (codec : JSONCodec Msg) (ms : List Msg)
    (h : ∀ m ∈ ms, ∃ t, codec.MarshalMessage m = .ok t) :
    ∃ ts, marshalMessages codec ms = .ok ts := by
  induction ms with
  | nil => exact ⟨[], rfl⟩
  | cons m rest ih =>
    obtain ⟨t, ht⟩ := h m (List.mem_cons_self _ _)
    obtain ⟨ts, hts⟩ := ih (fun m' hm' => h m' (List.mem_cons_of_mem _ hm'))
    exact ⟨t :: ts, by simp [marshalMessages, ht, hts]⟩

/-- A result with finite confidence and encodable messages is encoded as an object with the
four tagged fields. -/
theorem marshalNLPResponse_ok {Msg : Type} (codec : JSONCodec Msg) (r : NLPResponse Msg)
    (hfin : r.Confidence.isFinite = true)
    (hmsg : ∀ ms, r.FulfillmentMessages = some ms → ∀ m ∈ ms, ∃ t, codec.MarshalMessage m = .ok t) :
    ∃ fields, marshalNLPResponse codec r = .ok fields ∧
      fields.map Prod.fst = ["intent", "confidence", "entities", "fulfillmentMessages"] := by
  unfold marshalNLPResponse
  rw [if_pos hfin]
  cases hF : r.FulfillmentMessages with
  | none => exact ⟨_, rfl, rfl⟩
  | some ms =>
    obtain ⟨ts, hts⟩ := marshalMessages_ok codec ms (hmsg ms hF)
    simp only [hts]
    exact ⟨_, rfl, rfl⟩

/-- C7: when the provider call returns an error, `processNLP` returns the zero-valued result
without failing, and a POST request that decodes to that message is answered with status 200
and the four default fields -/
theorem processNLP_provider_error_zero_result {Msg : Type} (codec : JSONCodec Msg)
    (dp : DialogflowProcessor Msg) (rawMessage username e : String)
    (hcall : dp.sessionClient (detectIntentRequest dp rawMessage username) = .error e) :
    processNLP dp rawMessage username
      = .ok { Intent := "", Confidence := ⟨0⟩, Entities := none, FulfillmentMessages := none } ∧
    ∀ r : Request, r.Method = "POST" → r.BodyErr = none →
      codec.Unmarshal r.Body = .ok ⟨rawMessage⟩ → r.RemoteAddr = username →
      (intentRequestHandler codec dp ResponseWriter.fresh r).panicked = none ∧
      (intentRequestHandler codec dp ResponseWriter.fresh r).statusCode = 200 ∧
      (intentRequestHandler codec dp ResponseWriter.fresh r).w.body
        = [.json [("intent", .string ""), ("confidence", .number ⟨0⟩),
                  ("entities", .null), ("fulfillmentMessages", .null)]] := by
  have hp : processNLP dp rawMessage username = .ok NLPResponse.zero := by
    simp [processNLP, hcall]
  refine ⟨hp, ?_⟩
  intro r hM hB hU hA
  subst hA
  have hm : marshalNLPResponse codec (NLPResponse.zero : NLPResponse Msg)
      = .ok [("intent", .string ""), ("confidence", .number ⟨0⟩),
             ("entities", .null), ("fulfillmentMessages", .null)] := by
    have : (⟨0⟩ : Float32).isFinite = true := by decide
    simp [marshalNLPResponse, NLPResponse.zero, this]
  simp [intentRequestHandler, hM, hB, hU, hp, encodeTo, hm, ResponseWriter.Write,
    ResponseWriter.WriteHeader, ResponseWriter.headerSet, ResponseWriter.fresh,
    Outcome.statusCode]

/-- C7, at a concrete input: the provider is unreachable for the question `hi` -/
theorem processNLP_provider_error_zero_result_witness :
    processNLP (exampleProcessor (.error "rpc error: code = Unavailable")) "hi" "127.0.0.1:51234"
      = .ok { Intent := "", Confidence := ⟨0⟩, Entities := none, FulfillmentMessages := none } ∧
    (intentRequestHandler exampleCodec (exampleProcessor (.error "rpc error: code = Unavailable"))
      ResponseWriter.fresh examplePost).statusCode = 200 := by
  obtain ⟨h1, h2⟩ := processNLP_provider_error_zero_result exampleCodec
    (exampleProcessor (.error "rpc error: code = Unavailable")) "hi" "127.0.0.1:51234"
    "rpc error: code = Unavailable" rfl
  exact ⟨h1, (h2 examplePost rfl rfl (by decide) rfl).2.1⟩

/-- C8: a request whose method is not POST is answered with status 404 and the plain-text
message; the run takes no outside step, and its outcome is the same whatever the body, the
codec and the adapter are -/
theorem handler_rejects_non_post {Msg : Type} (codec : JSONCodec Msg)
    (dp : DialogflowProcessor Msg) (r : Request) (h : r.Method ≠ "POST") :
    (intentRequestHandler codec dp ResponseWriter.fresh r).panicked = none ∧
    (intentRequestHandler codec dp ResponseWriter.fresh r).statusCode = 404 ∧
    (intentRequestHandler codec dp ResponseWriter.fresh r).w.body
      = [.text "Method is not supported.\n"] ∧
    (intentRequestHandler codec dp ResponseWriter.fresh r).sentHeaders.lookup "Content-Type"
      = some "text/plain; charset=utf-8" ∧
    (intentRequestHandler codec dp ResponseWriter.fresh r).trace = [] ∧
    ∀ (codec' : JSONCodec Msg) (dp' : DialogflowProcessor Msg) (body : String)
      (bodyErr : Option String),
      intentRequestHandler codec' dp' ResponseWriter.fresh
          { Method := r.Method, Host := r.Host, RemoteAddr := r.RemoteAddr,
            Body := body, BodyErr := bodyErr }
        = intentRequestHandler codec dp ResponseWriter.fresh r := by
  have hout : ∀ (c : JSONCodec Msg) (d : DialogflowProcessor Msg) (q : Request),
      q.Method = r.Method →
      intentRequestHandler c d ResponseWriter.fresh q =
        { w := httpError
            (((ResponseWriter.fresh.headerSet "Access-Control-Allow-Origin" "*").headerSet
              "Access-Control-Allow-Methods" "POST, OPTIONS").headerSet
              "Access-Control-Allow-Headers"
              "Accept, Content-Type, Content-Length, Accept-Encoding, X-CSRF-Token, Authorization")
            "Method is not supported." 404
          trace := []
          panicked := none } := by
    intro c d q hq
    have hq' : q.Method ≠ "POST" := by rw [hq]; exact h
    simp [intentRequestHandler, hq']
  rw [hout codec dp r rfl]
  refine ⟨rfl, by decide, by decide, by decide, rfl, ?_⟩
  intro codec' dp' body bodyErr
  exact hout codec' dp' _ rfl

/-- C8, at a concrete input: a GET request -/
theorem handler_rejects_non_post_witness :
    exampleGet.Method ≠ "POST" ∧
    (intentRequestHandler exampleCodec (exampleProcessor (.ok answerWithIntent))
      ResponseWriter.fresh exampleGet).statusCode = 404 :=
  ⟨by decide,
   (handler_rejects_non_post exampleCodec (exampleProcessor (.ok answerWithIntent))
      exampleGet (by decide)).2.1⟩

/-- C9 (as amended): for a POST request whose body is read successfully, the handler panics
with nothing written exactly when the body fails to decode or the adapter call itself panics;
when the body decodes to the question `s` the adapter is invoked with `s` and the remote
address, and for every result the adapter returns that the JSON encoder accepts the answer is
status 200 with a JSON object of exactly the four fields -/
theorem handler_post_outcome {Msg : Type} (codec : JSONCodec Msg) (dp : DialogflowProcessor Msg)
    (r : Request) (hPost : r.Method = "POST") (hRead : r.BodyErr = none) :
    ((intentRequestHandler codec dp ResponseWriter.fresh r).abortedUnwritten = true ↔
      (∃ e, codec.Unmarshal r.Body = .error e) ∨
      ∃ s e, codec.Unmarshal r.Body = .ok ⟨s⟩ ∧ processNLP dp s r.RemoteAddr = .error e) ∧
    ∀ s, codec.Unmarshal r.Body = .ok ⟨s⟩ →
      (intentRequestHandler codec dp ResponseWriter.fresh r).trace
        = [.readBody, .processNLP s r.RemoteAddr] ∧
      ∀ response, processNLP dp s r.RemoteAddr = .ok response →
        response.Confidence.isFinite = true →
        (∀ ms, response.FulfillmentMessages = some ms →
          ∀ m ∈ ms, ∃ t, codec.MarshalMessage m = .ok t) →
        ∃ fields, marshalNLPResponse codec response = .ok fields ∧
          fields.map Prod.fst = ["intent", "confidence", "entities", "fulfillmentMessages"] ∧
          (intentRequestHandler codec dp ResponseWriter.fresh r).panicked = none ∧
          (intentRequestHandler codec dp ResponseWriter.fresh r).statusCode = 200 ∧
          (intentRequestHandler codec dp ResponseWriter.fresh r).sentHeaders.lookup "Content-Type"
            = some "application/json" ∧
          (intentRequestHandler codec dp ResponseWriter.fresh r).w.body = [.json fields] := by
  constructor
  · cases hU : codec.Unmarshal r.Body with
    | error e =>
      simp [intentRequestHandler, hPost, hRead, hU, Outcome.abortedUnwritten,
        ResponseWriter.headerSet, ResponseWriter.fresh]
    | ok m =>
      obtain ⟨s⟩ := m
      cases hP : processNLP dp s r.RemoteAddr with
      | error e =>
        simp [intentRequestHandler, hPost, hRead, hU, hP, Outcome.abortedUnwritten,
          ResponseWriter.headerSet, ResponseWriter.fresh]
      | ok response =>
        simp [intentRequestHandler, hPost, hRead, hU, hP, Outcome.abortedUnwritten]
  · intro s hU
    constructor
    · cases hP : processNLP dp s r.RemoteAddr <;>
        simp [intentRequestHandler, hPost, hRead, hU, hP]
    · intro response hP hfin hmsg
      obtain ⟨fields, hm, hnames⟩ := marshalNLPResponse_ok codec response hfin hmsg
      refine ⟨fields, hm, hnames, ?_⟩
      simp [intentRequestHandler, hPost, hRead, hU, hP, encodeTo, hm, ResponseWriter.Write,
        ResponseWriter.WriteHeader, ResponseWriter.headerSet, ResponseWriter.fresh,
        Outcome.statusCode, Outcome.sentHeaders]
      decide

/-- C9, at a concrete input: the question `hi` and an answer with an intent -/
theorem handler_post_outcome_witness :
    (intentRequestHandler exampleCodec (exampleProcessor (.ok answerWithIntent))
        ResponseWriter.fresh examplePost).abortedUnwritten = false ∧
    (intentRequestHandler exampleCodec (exampleProcessor (.ok answerWithIntent))
        ResponseWriter.fresh examplePost).trace
      = [.readBody, .processNLP "hi" "127.0.0.1:51234"] ∧
    (intentRequestHandler exampleCodec (exampleProcessor (.ok answerWithIntent))
        ResponseWriter.fresh examplePost).statusCode = 200 ∧
    (intentRequestHandler exampleCodec (exampleProcessor (.ok answerWithIntent))
        ResponseWriter.fresh examplePost).w.body
      = [.json [("intent", .string "order.size"), ("confidence", .number half32),
                ("entities", .object [("size", "3.000000"), ("city", "Boston")]),
                ("fulfillmentMessages", .array ["text: which size?"])]] := by
  obtain ⟨-, h⟩ := handler_post_outcome exampleCodec (exampleProcessor (.ok answerWithIntent))
    examplePost rfl rfl
  obtain ⟨htrace, hresp⟩ := h "hi" (by decide)
  obtain ⟨fields, hm, -, -, hstatus, -, hbody⟩ := hresp
    { Intent := "order.size", Confidence := half32,
      Entities := some [("size", "3.000000"), ("city", "Boston")],
      FulfillmentMessages := some ["text: which size?"] }
    (by decide) (by decide) (fun ms _ m _ => ⟨m, rfl⟩)
  refine ⟨by decide, htrace, hstatus, ?_⟩
  rw [hbody]
  have hf : marshalNLPResponse exampleCodec
      ({ Intent := "order.size", Confidence := half32,
         Entities := some [("size", "3.000000"), ("city", "Boston")],
         FulfillmentMessages := some ["text: which size?"] } : NLPResponse String)
      = .ok [("intent", .string "order.size"), ("confidence", .number half32),
             ("entities", .object [("size", "3.000000"), ("city", "Boston")]),
             ("fulfillmentMessages", .array ["text: which size?"])] := by decide
  rw [hf] at hm
  injection hm with hm
  rw [← hm]

/-- C9, counterexample: the body decodes to the question `hi`, yet the handler panics with
nothing written when a parameter of the answer is an empty list, and it answers status 200
with an empty body, hence no JSON object, when the confidence of the answer is a NaN -/
theorem handler_post_aborts_after_decoding :
    examplePost.Method = "POST" ∧ examplePost.BodyErr = none ∧
    exampleCodec.Unmarshal examplePost.Body = .ok ⟨"hi"⟩ ∧
    (intentRequestHandler exampleCodec (exampleProcessor (.ok answerWithEmptyList))
        ResponseWriter.fresh examplePost).abortedUnwritten = true ∧
    (intentRequestHandler exampleCodec (exampleProcessor (.ok answerWithEmptyList))
        ResponseWriter.fresh examplePost).panicked = some .indexOutOfRange ∧
    (intentRequestHandler exampleCodec (exampleProcessor (.ok answerWithNaN))
        ResponseWriter.fresh examplePost).panicked = none ∧
    (intentRequestHandler exampleCodec (exampleProcessor (.ok answerWithNaN))
        ResponseWriter.fresh examplePost).statusCode = 200 ∧
    (intentRequestHandler exampleCodec (exampleProcessor (.ok answerWithNaN))
        ResponseWriter.fresh examplePost).w.body = [] := by
  refine ⟨rfl, rfl, ?_, ?_, ?_, ?_, ?_, ?_⟩ <;> decide

end PortfolioApi
